import Mathlib

/-!
Verification of the rockscache coordination protocol (dtm-labs/rockscache).

The library stores, for each logical key, a Redis hash with fields
`value`, `lockUntil` (spelled `lockUtil` in the older client.go snapshot)
and `lockOwner`, plus a TTL on the hash itself.  All mutations happen
through small atomic Lua scripts.  This file embeds those scripts and the
Go-side orchestration (per-probe decision logic of the weak/strong fetch
state machines, the TTL arithmetic, the error paths) as pure Lean
functions over an explicit entry state, and proves the specified
properties about them.

Durations are modelled as Go models them: `time.Duration` is an integer
count of nanoseconds, and the integer division of Go (which truncates toward
zero, `Int.tdiv`) converts a duration to whole seconds at the script
boundary.  The `float64` random draw of `rand.Float64()` is modelled as a
rational number `u` with `0 ≤ u < 1`; the float-to-Duration conversion of Go
truncates the (nonnegative) product toward zero, i.e. takes its floor.
-/

namespace RocksCache

/-- Nanoseconds per second; `time.Second` as an integer `time.Duration`. -/
def nsPerSec : Int := 1000000000

/-- The state of one cached key: the Redis hash fields `value`,
`lockUntil`, `lockOwner` (each `none` when the field is absent from the
hash) together with the TTL most recently applied to the hash by
`EXPIRE` (`none` when no TTL was ever applied / the key is missing).
Redis stores every field as a string; `lockUntil` is always written from
an integer and read back through `tonumber`, so it is modelled as `Int`. -/
structure Entry where
  value : Option String
  lockUntil : Option Int
  lockOwner : Option String
  ttl : Option Int
  deriving DecidableEq

/-- A missing key: no hash, no fields, no TTL.  This is also the state
after `DEL`. -/
def Entry.missing : Entry := ⟨none, none, none, none⟩

/-- The second component of the reply of the get script: the literal sentinel
`"LOCKED"` (the caller was just granted the recompute lock), the raw
stored `lockUntil` (some other caller holds an unexpired lock), or nil
(no lock field: a stable value).  In the Go client the first two arrive
as strings and only `absent` is a nil interface. -/
inductive LockInfo where
  | lockedSentinel
  | lockUntilVal (lu : Int)
  | absent
  deriving DecidableEq

/-- The pair `{v, lu}` returned by the get script: the stored value (nil
when the `value` field is absent) and the lock information. -/
structure GetReply where
  v : Option String
  lu : LockInfo
  deriving DecidableEq

/-- Client options (src/client.go lines 17-46).  Duration-typed fields
hold nanosecond counts, exactly like the Go type `time.Duration`;
`RandomExpireAdjustment` is a `float64`, modelled as a rational. -/
structure Options where
  delay : Int
  emptyExpire : Int
  lockExpire : Int
  lockSleep : Int
  randomExpireAdjustment : ℚ
  disableCacheRead : Bool
  disableCacheDelete : Bool
  strongConsistency : Bool
  deriving DecidableEq

/-- Default options, `NewDefaultOptions` (src/client.go lines 49-58): Delay 10s,
EmptyExpire 60s, LockExpire 3s, LockSleep 100ms,
RandomExpireAdjustment 0.1, consistency flags off. -/
def NewDefaultOptions : Options :=
  ⟨10 * nsPerSec, 60 * nsPerSec, 3 * nsPerSec, 100000000, 1/10,
   false, false, false⟩

/-- The get script (src/unnamed/part_006 lines 11-19; identical logic at
src/client.go lines 137-146 with the field spelled `lockUtil`):

    local v = redis.call("HGET", KEYS[1], "value")
    local lu = redis.call("HGET", KEYS[1], "lockUntil")
    if lu ~= false and tonumber(lu) < tonumber(ARGV[1])
       or lu == false and v == false then
      redis.call("HSET", KEYS[1], "lockUntil", ARGV[2])
      redis.call("HSET", KEYS[1], "lockOwner", ARGV[3])
      return { v, "LOCKED" }
    end
    return {v, lu}

`now` is ARGV[1], `newLockUntil` ARGV[2], `owner` ARGV[3].  Returns the
updated entry and the reply pair. -/
def getScript (now newLockUntil : Int) (owner : String) (e : Entry) :
    Entry × GetReply :=
  match e.lockUntil with
  | some lu =>
      if lu < now then
        (⟨e.value, some newLockUntil, some owner, e.ttl⟩,
         ⟨e.value, LockInfo.lockedSentinel⟩)
      else
        (e, ⟨e.value, LockInfo.lockUntilVal lu⟩)
  | none =>
      if e.value = none then
        (⟨e.value, some newLockUntil, some owner, e.ttl⟩,
         ⟨e.value, LockInfo.lockedSentinel⟩)
      else
        (e, ⟨e.value, LockInfo.absent⟩)

/-- The get-batch script (src/unnamed/part_006 lines 49-63): the same
per-key logic as `getScript`, applied to each key of the batch in turn
(the keys of one call are distinct, so the per-key transitions are
independent). -/
def getBatchScript (now newLockUntil : Int) (owner : String)
    (es : List Entry) : List Entry × List GetReply :=
  (es.map (fun e => (getScript now newLockUntil owner e).1),
   es.map (fun e => (getScript now newLockUntil owner e).2))

/-- The set script (src/unnamed/part_006 lines 21-29; identical logic at
src/client.go lines 155-164):

    local o = redis.call("HGET", KEYS[1], "lockOwner")
    if o ~= ARGV[2] then
        return
    end
    redis.call("HSET", KEYS[1], "value", ARGV[1])
    redis.call("HDEL", KEYS[1], "lockUntil")
    redis.call("HDEL", KEYS[1], "lockOwner")
    redis.call("EXPIRE", KEYS[1], ARGV[3])

An absent `lockOwner` reads as Lua `false`, which never equals the
string ARGV[2], so the mismatch branch also covers the absent case. -/
def setScript (value owner : String) (ttl : Int) (e : Entry) : Entry :=
  if e.lockOwner = some owner then
    ⟨some value, none, none, some ttl⟩
  else
    e

/-- The delete (tombstone) script (src/unnamed/part_006 lines 6-9):

    redis.call("HSET", KEYS[1], "lockUntil", 0)
    redis.call("HDEL", KEYS[1], "lockOwner")
    redis.call("EXPIRE", KEYS[1], ARGV[1])

Unconditional: no ownership check, `value` untouched. -/
def deleteScript (delayTtl : Int) (e : Entry) : Entry :=
  ⟨e.value, some 0, none, some delayTtl⟩

/-- The delete-batch script (src/unnamed/part_006 lines 79-84): the
single-key tombstone applied to every key of the batch. -/
def deleteBatchScript (delayTtl : Int) (es : List Entry) : List Entry :=
  es.map (deleteScript delayTtl)

/-- The unlock script (src/unnamed/part_006 lines 41-47):

    local lo = redis.call("HGET", KEYS[1], "lockOwner")
    if lo == ARGV[1] then
      redis.call("HSET", KEYS[1], "lockUntil", 0)
      redis.call("HDEL", KEYS[1], "lockOwner")
      redis.call("EXPIRE", KEYS[1], ARGV[2])
    end
-/
def unlockScript (owner : String) (ttl : Int) (e : Entry) : Entry :=
  if e.lockOwner = some owner then
    ⟨e.value, some 0, none, some ttl⟩
  else
    e

/-- Writing one key inside the loop body of the set-batch script
(src/unnamed/part_006 lines 73-76): value ARGV[i+1], TTL ARGV[i+1+n]. -/
def setWrite (value : String) (ttl : Int) (_e : Entry) : Entry :=
  ⟨some value, none, none, some ttl⟩

/-- The set-batch script (src/unnamed/part_006 lines 65-77):

    local n = #KEYS
    for i, key in ipairs(KEYS) do
      local o = redis.call("HGET", key, "lockOwner")
      if o ~= ARGV[1] then
          return
      end
      redis.call("HSET", key, "value", ARGV[i+1])
      redis.call("HDEL", key, "lockUntil")
      redis.call("HDEL", key, "lockOwner")
      redis.call("EXPIRE", key, ARGV[i+1+n])
    end

The keys are processed in order; the `return` at the first owner
mismatch leaves that key and every later key untouched.  The wrapper
`luaSetBatch` (src/batch.go lines 30-41) always supplies exactly one
value and one expire per key, so the length-mismatch fallback (where the
Lua script would raise on a nil ARGV) is never reached. -/
def setBatchScript (owner : String) :
    List String → List Int → List Entry → List Entry
  | v :: vs, t :: ts, e :: es =>
      if e.lockOwner = some owner then
        setWrite v t e :: setBatchScript owner vs ts es
      else
        e :: es
  | _, _, es => es

/-- The `lockUntil` argument the single-key client hands the get script
(src/client.go line 146): `now() + int64(c.Options.LockExpire)`.
`LockExpire` is a `time.Duration`, i.e. a nanosecond count, and the cast
does not convert it to seconds. -/
def luaGetDeadline (now lockExpire : Int) : Int :=
  now + lockExpire

/-- The `lockUntil` argument the batch client hands the get-batch script
(src/batch.go line 22): `now() + int64(c.Options.LockExpire/time.Second)`.
Go duration division truncates toward zero. -/
def luaGetBatchDeadline (now lockExpire : Int) : Int :=
  now + lockExpire.tdiv nsPerSec

/-- The jitter subtracted from the expire given by the caller
(src/client.go line 124 and src/batch.go line 68):
`time.Duration(rand.Float64()*c.Options.RandomExpireAdjustment*float64(expire))`.
`u` stands for the draw of `rand.Float64()`, so `0 ≤ u < 1`; the
float-to-Duration conversion truncates toward zero, which on this
nonnegative product is the floor. -/
def jitterDur (adj u : ℚ) (expire : Int) : Int :=
  ⌊u * adj * (expire : ℚ)⌋

/-- The effective expire duration computed by `Fetch` (src/client.go
line 124) and per index by `fetchBatch` (src/batch.go line 68):
`expire - c.Options.Delay - jitter`. -/
def fetchEffectiveExpire (opts : Options) (u : ℚ) (expire : Int) : Int :=
  expire - opts.delay - jitterDur opts.randomExpireAdjustment u expire

/-- The whole-second TTL that reaches the set script for a non-empty
result: `fetchNew` passes `int(expire/time.Second)` of the effective
expire to `luaSet` (src/client.go line 180), and `fetchBatch` appends
`int(ex/time.Second)` to the set-batch expires (src/batch.go line 83). -/
def fetchSetTtlSecs (opts : Options) (u : ℚ) (expire : Int) : Int :=
  (fetchEffectiveExpire opts u expire).tdiv nsPerSec

/-- The function `fetchNew` (src/client.go lines 168-182), with the network modelled
away: the outcome of the fetch function is passed in as `fnRes` and the entry of the key
as `e`; the result is the entry after the store effects of `fetchNew`
plus the returned `(string, error)` pair.

    result, err := fn()
    if err != nil { return "", err }
    if result == "" {
      if c.Options.EmptyExpire == 0 { err = c.rdb.Del(...); return "", err }
      expire = c.Options.EmptyExpire
    }
    err = c.luaSet(key, result, int(expire/time.Second), owner)
    return result, err

Note the error branch performs no store operation at all (in particular
no unlock).  `expire` arrives already jittered by `Fetch`. -/
def fetchNewModel (opts : Options) (expire : Int) (owner : String)
    (fnRes : Except String String) (e : Entry) :
    Entry × Except String String :=
  match fnRes with
  | Except.error err => (e, Except.error err)
  | Except.ok result =>
      if result = "" then
        if opts.emptyExpire = 0 then
          (Entry.missing, Except.ok "")
        else
          (setScript "" owner (opts.emptyExpire.tdiv nsPerSec) e,
           Except.ok "")
      else
        (setScript result owner (expire.tdiv nsPerSec) e,
         Except.ok result)

/-- What `fetchBatch` does to one fetched index on the success path
(src/batch.go lines 66-84): either `DEL` the key outright (empty value
and `EmptyExpire == 0`) or contribute `(value, ttlSeconds)` to the
set-batch call. -/
inductive ItemPlan where
  | delKey
  | setItem (v : String) (ttlSecs : Int)
  deriving DecidableEq

/-- The per-index body of the accumulation loop in `fetchBatch`
(src/batch.go lines 66-84): `v := data[idx]` (empty string when the
index is missing from the map returned by fn), `ex` freshly jittered, then the empty
handling mirrors `fetchNew`. -/
def fetchBatchItem (opts : Options) (expire : Int) (u : ℚ) (v : String) :
    ItemPlan :=
  if v = "" then
    if opts.emptyExpire = 0 then
      ItemPlan.delKey
    else
      ItemPlan.setItem "" (opts.emptyExpire.tdiv nsPerSec)
  else
    ItemPlan.setItem v ((fetchEffectiveExpire opts u expire).tdiv nsPerSec)

/-- Modelled from the spec: the `UnlockForUpdate` wrapper of the current
single-key client is not among the source files (src/batch.go
line 52 and the tests call it); per the spec (§4.1 unlock and §4.5) it
runs the unlock script with the owner token of the caller and a TTL. -/
def UnlockForUpdate (owner : String) (ttl : Int) (e : Entry) : Entry :=
  unlockScript owner ttl e

/-- The error branch of `fetchBatch` (src/batch.go lines 49-55): when fn
fails, every key in the index set of this call is unlocked under the owner
token of this call and the error is returned with no data:

    data, err := fn(idxs)
    if err != nil {
      for _, idx := range idxs { _ = c.UnlockForUpdate(ctx, keys[idx], owner) }
      return nil, err
    }
-/
def fetchBatchOnError (owner : String) (unlockTtl : Int) (err : String)
    (es : List Entry) : List Entry × Except String (List String) :=
  (es.map (UnlockForUpdate owner unlockTtl), Except.error err)

/-- Modelled from the spec: the `TagAsDeleted` wrapper of the current
single-key client is absent from the source files (the tests call
`TagAsDeleted`/`TagAsDeleted2`; no file defines them).  Per the spec
(§4.5: run delete-tombstone with `delayTtl = Delay`, whole seconds at
the script boundary) and the batch sibling `TagAsDeletedBatch2`
(src/batch.go line 386, which passes `int64(c.Options.Delay/time.Second)`),
it runs the delete script with Delay in seconds, after the
`DisableCacheDelete` short-circuit. -/
def TagAsDeleted (opts : Options) (e : Entry) : Entry :=
  if opts.disableCacheDelete then
    e
  else
    deleteScript (opts.delay.tdiv nsPerSec) e

/-- The operation `TagAsDeletedBatch2` (src/batch.go lines 380-405): after the
`DisableCacheDelete` short-circuit, one delete-batch script call with
`int64(c.Options.Delay / time.Second)` as the TTL argument. -/
def TagAsDeletedBatchModel (opts : Options) (es : List Entry) :
    List Entry :=
  if opts.disableCacheDelete then
    es
  else
    deleteBatchScript (opts.delay.tdiv nsPerSec) es

/-- The decision `weakFetch` takes from one get-script reply
(src/client.go lines 188-205): keep sleeping and re-probe while the
value is absent and someone else holds the lock; otherwise return the
value when the lock was not granted to us, fetch in the foreground when
we were granted the lock on a valueless entry, and return the stale
value while refreshing in a detached goroutine when we were granted the
lock on an entry that still carries a value. -/
inductive WeakAction where
  | retry
  | returnValue (v : String)
  | fetchForeground
  | returnStaleAndRefresh (v : String)
  deriving DecidableEq

/-- Per-probe step of `weakFetch` (src/client.go lines 188-205).  The
branch order mirrors the Go control flow:

    for err == nil && r[0] == nil && r[1].(string) != locked { sleep; reprobe }
    if r[1] != locked { return r[0].(string), nil }
    if r[0] == nil { return c.fetchNew(...) }
    go withRecover(func() { _, _ = c.fetchNew(...) })
    return r[0].(string), nil

`Option.getD ""` stands for the Go type assertion `r[0].(string)`; the
reply-shape theorem shows the asserted component is never nil there. -/
def weakFetchStep (r : GetReply) : WeakAction :=
  if r.v = none ∧ r.lu ≠ LockInfo.lockedSentinel then
    WeakAction.retry
  else if r.lu ≠ LockInfo.lockedSentinel then
    WeakAction.returnValue (r.v.getD "")
  else if r.v = none then
    WeakAction.fetchForeground
  else
    WeakAction.returnStaleAndRefresh (r.v.getD "")

/-- The decision `strongFetch` takes from one get-script reply. -/
inductive StrongAction where
  | retry
  | returnValue (v : String)
  | fetchForeground
  deriving DecidableEq

/-- Per-probe step of `strongFetch` (src/client.go lines 212-223):

    for err == nil && r[1] != nil && r[1] != locked { sleep; reprobe }
    if r[1] != locked { return r[0].(string), nil }
    return c.fetchNew(...)
-/
def strongFetchStep (r : GetReply) : StrongAction :=
  if r.lu ≠ LockInfo.absent ∧ r.lu ≠ LockInfo.lockedSentinel then
    StrongAction.retry
  else if r.lu ≠ LockInfo.lockedSentinel then
    StrongAction.returnValue (r.v.getD "")
  else
    StrongAction.fetchForeground

/-- Per-key waiter step of `strongFetchBatch` (src/batch.go lines
294-321): the same loop condition and exits as `strongFetchStep`, with
`fetchForeground` realized by pushing the index onto `toFetch` through
`errNeedFetch`. -/
def strongWaiterStep (r : GetReply) : StrongAction :=
  if r.lu ≠ LockInfo.absent ∧ r.lu ≠ LockInfo.lockedSentinel then
    StrongAction.retry
  else if r.lu ≠ LockInfo.lockedSentinel then
    StrongAction.returnValue (r.v.getD "")
  else
    StrongAction.fetchForeground

/-- How the first pass of `weakFetchBatch` classifies one index
(src/batch.go lines 117-135). -/
inductive WeakBatchClass where
  | toFetch
  | toGet
  | asyncAndServe (v : String)
  | serve (v : String)
  deriving DecidableEq

/-- First-pass classification of `weakFetchBatch`
(src/batch.go lines 117-135):

    if r[0] == nil {
      if r[1] == locked { toFetch } else { toGet }
      continue
    }
    if r[1] == locked { toFetchAsync /* fallthrough with old data */ }
    result[i] = r[0].(string)
-/
def weakBatchClassify (r : GetReply) : WeakBatchClass :=
  if r.v = none then
    if r.lu = LockInfo.lockedSentinel then
      WeakBatchClass.toFetch
    else
      WeakBatchClass.toGet
  else if r.lu = LockInfo.lockedSentinel then
    WeakBatchClass.asyncAndServe (r.v.getD "")
  else
    WeakBatchClass.serve (r.v.getD "")

/-- How the first pass of `strongFetchBatch` classifies one index
(src/batch.go lines 254-268). -/
inductive StrongBatchClass where
  | immediate (v : String)
  | toGet
  | toFetch
  deriving DecidableEq

/-- First-pass classification of `strongFetchBatch`
(src/batch.go lines 254-268):

    if r[1] == nil { result[i] = r[0].(string); continue }
    if r[1] != locked { toGet; continue }
    toFetch
-/
def strongBatchClassify (r : GetReply) : StrongBatchClass :=
  if r.lu = LockInfo.absent then
    StrongBatchClass.immediate (r.v.getD "")
  else if r.lu ≠ LockInfo.lockedSentinel then
    StrongBatchClass.toGet
  else
    StrongBatchClass.toFetch

/-- The reply one probe of a key yields: the second component of the get
script on the current entry of the key. -/
def probeReply (now newLockUntil : Int) (owner : String) (e : Entry) :
    GetReply :=
  (getScript now newLockUntil owner e).2

/-- The set-batch loop body applied to every key with no owner guard:
what `setBatchScript` does on a batch whose every key is owned by the
caller.  Used to state how far a partially-aborted batch got. -/
def writeAll : List String → List Int → List Entry → List Entry
  | v :: vs, t :: ts, e :: es => setWrite v t e :: writeAll vs ts es
  | _, _, _ => []

lemma probeReply_value_none_lock (now nlu : Int) (o : String) (e : Entry) :
    (probeReply now nlu o e).v = none →
    (probeReply now nlu o e).lu ≠ LockInfo.absent := by
  unfold probeReply getScript
  cases e.lockUntil with
  | some lu => dsimp only; split <;> simp
  | none => dsimp only; split <;> simp_all

lemma probeReply_absent_value (now nlu : Int) (o : String) (e : Entry) :
    (probeReply now nlu o e).lu = LockInfo.absent →
    ∃ s, (probeReply now nlu o e).v = some s := by
  intro h
  rcases hv : (probeReply now nlu o e).v with _ | s
  · exact absurd h (probeReply_value_none_lock now nlu o e hv)
  · exact ⟨s, rfl⟩

lemma probeReply_grant_lockOwner (now nlu : Int) (o : String) (e : Entry) :
    (probeReply now nlu o e).lu = LockInfo.lockedSentinel →
    (getScript now nlu o e).1.lockOwner = some o := by
  unfold probeReply getScript
  cases e.lockUntil with
  | some lu => dsimp only; split <;> simp
  | none => dsimp only; split <;> simp

/-- C1: the set script installs a value only when the stored `lockOwner`
equals the owner token of the writer and is a strict no-op otherwise; hence a
set attempted after a tombstone (which clears `lockOwner`) or after a
later lock grant to a different owner leaves the entry untouched, so
only the most recently granted lock owner can install a value. -/
theorem setScript_owner_guard :
    ∀ (e : Entry) (v o : String) (ttl : Int),
      (e.lockOwner ≠ some o → setScript v o ttl e = e) ∧
      (e.lockOwner = some o →
        setScript v o ttl e = ⟨some v, none, none, some ttl⟩) ∧
      (∀ d : Int, setScript v o ttl (deleteScript d e) = deleteScript d e) ∧
      (∀ (now nlu : Int) (o2 : String), o2 ≠ o →
        (probeReply now nlu o2 e).lu = LockInfo.lockedSentinel →
        setScript v o ttl (getScript now nlu o2 e).1 =
          (getScript now nlu o2 e).1) := by
  intro e v o ttl
  refine ⟨fun h => ?_, fun h => ?_, fun d => ?_, fun now nlu o2 hne hg => ?_⟩
  · simp [setScript, h]
  · simp [setScript, h]
  · simp [setScript, deleteScript]
  · have ho := probeReply_grant_lockOwner now nlu o2 e hg
    have hno : (getScript now nlu o2 e).1.lockOwner ≠ some o := by
      rw [ho]
      simpa using hne
    simp [setScript, hno]

theorem setScript_owner_guard_witness :
    setScript "v" "A" 7 ⟨some "x", some 5, some "B", some 9⟩ =
      ⟨some "x", some 5, some "B", some 9⟩ ∧
    setScript "v" "A" 7 ⟨some "x", some 5, some "A", some 9⟩ =
      ⟨some "v", none, none, some 7⟩ ∧
    setScript "v" "A" 7 (deleteScript 10 ⟨some "x", some 5, some "A", some 9⟩) =
      deleteScript 10 ⟨some "x", some 5, some "A", some 9⟩ ∧
    setScript "v" "A" 7 (getScript 100 103 "B" ⟨some "x", some 5, none, some 9⟩).1 =
      (getScript 100 103 "B" ⟨some "x", some 5, none, some 9⟩).1 := by
  refine ⟨?_, ?_, ?_, ?_⟩
  · exact (setScript_owner_guard ⟨some "x", some 5, some "B", some 9⟩ "v" "A" 7).1
      (by decide)
  · exact (setScript_owner_guard ⟨some "x", some 5, some "A", some 9⟩ "v" "A" 7).2.1
      rfl
  · exact (setScript_owner_guard ⟨some "x", some 5, some "A", some 9⟩ "v" "A" 7).2.2.1 10
  · exact (setScript_owner_guard ⟨some "x", some 5, none, some 9⟩ "v" "A" 7).2.2.2
      100 103 "B" (by decide) (by decide)

/-- C10: every get-script (and get-batch-script) reply with a nil value
component carries a non-nil second component — the script grants the
lock whenever both fields are absent — so the string assertion of the weak
wait loop on the second component, and the value assertion taken when no
lock is reported, never fault. -/
theorem getReply_nil_value_shape :
    ∀ (now nlu : Int) (o : String) (e : Entry) (es : List Entry),
      ((probeReply now nlu o e).v = none →
        (probeReply now nlu o e).lu ≠ LockInfo.absent) ∧
      (∀ r ∈ (getBatchScript now nlu o es).2,
        r.v = none → r.lu ≠ LockInfo.absent) ∧
      (∀ r : GetReply, r.lu ≠ LockInfo.lockedSentinel →
        weakFetchStep r = WeakAction.retry ∨
        ∃ s, r.v = some s ∧ weakFetchStep r = WeakAction.returnValue s) := by
  intro now nlu o e es
  refine ⟨probeReply_value_none_lock now nlu o e, fun r hr => ?_, fun r hlu => ?_⟩
  · rcases List.mem_map.1 hr with ⟨e2, _, rfl⟩
    exact probeReply_value_none_lock now nlu o e2
  · rcases hv : r.v with _ | s
    · exact Or.inl (by simp [weakFetchStep, hv, hlu])
    · exact Or.inr ⟨s, rfl, by simp [weakFetchStep, hv, hlu]⟩

theorem getReply_nil_value_shape_witness :
    (probeReply 10 13 "A" ⟨none, some 100, some "B", some 50⟩).lu ≠
      LockInfo.absent ∧
    weakFetchStep ⟨some "x", LockInfo.absent⟩ = WeakAction.returnValue "x" := by
  constructor
  · exact (getReply_nil_value_shape 10 13 "A" ⟨none, some 100, some "B", some 50⟩
      []).1 rfl
  · rcases (getReply_nil_value_shape 10 13 "A" Entry.missing []).2.2
        ⟨some "x", LockInfo.absent⟩ (by decide) with h | ⟨s, hs, h⟩
    · exact absurd h (by decide)
    · rwa [show s = "x" from by injection hs.symm] at h

/-- C3: in strong mode a stored value is returned only when the probe
reports no lock (`lu` nil); a reply carrying the raw unexpired
`lockUntil` — even with a stale value alongside — makes the caller
sleep and re-probe; a reply carrying the LOCKED grant sends the caller
into the foreground recompute, whose return value is exactly the
result of fn.  This covers `strongFetch`, the first-pass classification
of `strongFetchBatch` and its per-key waiter. -/
theorem strongFetch_never_serves_locked :
    ∀ (now nlu : Int) (o : String) (e : Entry) (opts : Options)
      (expire : Int) (fnRes : Except String String) (e2 : Entry),
      (∀ s, strongFetchStep (probeReply now nlu o e) = StrongAction.returnValue s →
        (probeReply now nlu o e).lu = LockInfo.absent ∧
        (probeReply now nlu o e).v = some s) ∧
      (∀ s, strongWaiterStep (probeReply now nlu o e) = StrongAction.returnValue s →
        (probeReply now nlu o e).lu = LockInfo.absent ∧
        (probeReply now nlu o e).v = some s) ∧
      (∀ s, strongBatchClassify (probeReply now nlu o e) = StrongBatchClass.immediate s →
        (probeReply now nlu o e).lu = LockInfo.absent ∧
        (probeReply now nlu o e).v = some s) ∧
      (∀ n, (probeReply now nlu o e).lu = LockInfo.lockUntilVal n →
        strongFetchStep (probeReply now nlu o e) = StrongAction.retry ∧
        strongWaiterStep (probeReply now nlu o e) = StrongAction.retry ∧
        strongBatchClassify (probeReply now nlu o e) = StrongBatchClass.toGet) ∧
      ((probeReply now nlu o e).lu = LockInfo.lockedSentinel →
        strongFetchStep (probeReply now nlu o e) = StrongAction.fetchForeground ∧
        strongWaiterStep (probeReply now nlu o e) = StrongAction.fetchForeground ∧
        strongBatchClassify (probeReply now nlu o e) = StrongBatchClass.toFetch) ∧
      (fetchNewModel opts expire o fnRes e2).2 = fnRes := by
  intro now nlu o e opts expire fnRes e2
  have habs : (probeReply now nlu o e).lu = LockInfo.absent →
      ∃ s, (probeReply now nlu o e).v = some s :=
    probeReply_absent_value now nlu o e
  refine ⟨fun s hs => ?_, fun s hs => ?_, fun s hs => ?_,
    fun n hn => ?_, fun hl => ?_, ?_⟩
  · rcases hc : (probeReply now nlu o e).lu with _ | n | _
    · simp [strongFetchStep, hc] at hs
    · simp [strongFetchStep, hc] at hs
    · rcases habs hc with ⟨s2, hs2⟩
      refine ⟨rfl, ?_⟩
      rw [hs2]
      simp only [strongFetchStep, hc, hs2] at hs
      simp at hs
      rw [hs]
  · rcases hc : (probeReply now nlu o e).lu with _ | n | _
    · simp [strongWaiterStep, hc] at hs
    · simp [strongWaiterStep, hc] at hs
    · rcases habs hc with ⟨s2, hs2⟩
      refine ⟨rfl, ?_⟩
      rw [hs2]
      simp only [strongWaiterStep, hc, hs2] at hs
      simp at hs
      rw [hs]
  · rcases hc : (probeReply now nlu o e).lu with _ | n | _
    · simp [strongBatchClassify, hc] at hs
    · simp [strongBatchClassify, hc] at hs
    · rcases habs hc with ⟨s2, hs2⟩
      refine ⟨rfl, ?_⟩
      rw [hs2]
      simp only [strongBatchClassify, hc, hs2] at hs
      simp at hs
      rw [hs]
  · exact ⟨by simp [strongFetchStep, hn], by simp [strongWaiterStep, hn],
      by simp [strongBatchClassify, hn]⟩
  · exact ⟨by simp [strongFetchStep, hl], by simp [strongWaiterStep, hl],
      by simp [strongBatchClassify, hl]⟩
  · cases fnRes with
    | error err => rfl
    | ok result =>
        by_cases hr : result = ""
        · subst hr
          by_cases hz : opts.emptyExpire = 0 <;>
            simp [fetchNewModel, hz]
        · simp [fetchNewModel, hr]

theorem strongFetch_never_serves_locked_witness :
    (probeReply 10 13 "A" ⟨some "x", some 100, some "B", some 50⟩).lu =
      LockInfo.lockUntilVal 100 ∧
    strongFetchStep (probeReply 10 13 "A" ⟨some "x", some 100, some "B", some 50⟩) =
      StrongAction.retry ∧
    (fetchNewModel NewDefaultOptions 40000000000 "A" (Except.ok "v")
      ⟨none, some 13, some "A", none⟩).2 = Except.ok "v" := by
  refine ⟨by decide, ?_, ?_⟩
  · exact ((strongFetch_never_serves_locked 10 13 "A"
      ⟨some "x", some 100, some "B", some 50⟩ NewDefaultOptions 0
      (Except.ok "v") Entry.missing).2.2.2.1 100 (by decide)).1
  · exact (strongFetch_never_serves_locked 10 13 "A" Entry.missing
      NewDefaultOptions 40000000000 (Except.ok "v")
      ⟨none, some 13, some "A", none⟩).2.2.2.2.2

/-- C4 counterexample: a probe on a key holding a stale value under
an unexpired lock of another owner (value present, `lockUntil = 100` in the
future at `now = 10`).  The claim says weak mode returns the stale value
AND starts a detached background recompute; the code returns the stale
value without starting one — `weakFetch` takes the plain
`returnValue` branch and `weakFetchBatch` files the index as a plain
`serve`, not `asyncAndServe`.  The background refresh only starts on
replies that carry the LOCKED grant. -/
theorem weakFetch_inflight_lock_no_refresh :
    probeReply 10 13 "me" ⟨some "v1", some 100, some "B", some 50⟩ =
      ⟨some "v1", LockInfo.lockUntilVal 100⟩ ∧
    weakFetchStep ⟨some "v1", LockInfo.lockUntilVal 100⟩ =
      WeakAction.returnValue "v1" ∧
    weakFetchStep ⟨some "v1", LockInfo.lockUntilVal 100⟩ ≠
      WeakAction.returnStaleAndRefresh "v1" ∧
    weakBatchClassify ⟨some "v1", LockInfo.lockUntilVal 100⟩ =
      WeakBatchClass.serve "v1" ∧
    weakBatchClassify ⟨some "v1", LockInfo.lockUntilVal 100⟩ ≠
      WeakBatchClass.asyncAndServe "v1" := by
  decide

/-- C4 as amended: weak mode returns a present stale value immediately
in both lock-indicating cases, but the detached background recompute is
started exactly when the probe reply carries the LOCKED grant (the entry
was tombstoned or its previous lock had expired, so this caller now owns
the lock); under an unexpired lock of another owner the stale value is
served with no recompute scheduled. -/
theorem weakFetch_stale_serving :
    ∀ (now nlu : Int) (o : String) (e : Entry) (s : String),
      (probeReply now nlu o e).v = some s →
      ((probeReply now nlu o e).lu = LockInfo.lockedSentinel →
        weakFetchStep (probeReply now nlu o e) =
          WeakAction.returnStaleAndRefresh s ∧
        weakBatchClassify (probeReply now nlu o e) =
          WeakBatchClass.asyncAndServe s) ∧
      (∀ n, (probeReply now nlu o e).lu = LockInfo.lockUntilVal n →
        weakFetchStep (probeReply now nlu o e) = WeakAction.returnValue s ∧
        weakBatchClassify (probeReply now nlu o e) = WeakBatchClass.serve s) := by
  intro now nlu o e s hv
  constructor
  · intro hl
    constructor
    · simp [weakFetchStep, hv, hl]
    · simp [weakBatchClassify, hv, hl]
  · intro n hn
    constructor
    · simp [weakFetchStep, hv, hn]
    · simp [weakBatchClassify, hv, hn]

theorem weakFetch_stale_serving_witness :
    weakFetchStep (probeReply 10 13 "me" ⟨some "v1", some 3, some "B", some 50⟩) =
      WeakAction.returnStaleAndRefresh "v1" ∧
    weakBatchClassify (probeReply 10 13 "me" ⟨some "v1", some 100, some "B", some 50⟩) =
      WeakBatchClass.serve "v1" := by
  constructor
  · exact ((weakFetch_stale_serving 10 13 "me"
      ⟨some "v1", some 3, some "B", some 50⟩ "v1" (by decide)).1 (by decide)).1
  · exact ((weakFetch_stale_serving 10 13 "me"
      ⟨some "v1", some 100, some "B", some 50⟩ "v1" (by decide)).2 100 (by decide)).2

/-- C2: with `LockExpire = 3s` (the default, `3000000000` as a
`time.Duration`) and `now = 1000`, the deadline argument of the batch client
is `1003` — the epoch second plus LockExpire in seconds, as the claim
states — while the deadline argument of the single-key client is
`3000001000`: `luaGet` adds the raw nanosecond count to the epoch
second, so the stored `lockUntil` of a granted lock lies ~95 years in the
future instead of `LockExpire` away.  The last two conjuncts show the
get script stores exactly these deadlines when it grants the lock on a
missing key. -/
theorem luaGet_deadline_units :
    luaGetBatchDeadline 1000 (3 * nsPerSec) = 1003 ∧
    luaGetDeadline 1000 (3 * nsPerSec) = 3000001000 ∧
    (getScript 1000 (luaGetDeadline 1000 (3 * nsPerSec)) "o"
      Entry.missing).1.lockUntil = some 3000001000 ∧
    (getScript 1000 (luaGetBatchDeadline 1000 (3 * nsPerSec)) "o"
      Entry.missing).1.lockUntil = some 1003 := by
  decide

/-- C5: on a fetch-function error, `fetchBatch` unlocks every key of its
index set under the owner token of this call (setting `lockUntil` to 0 and
clearing `lockOwner`, making the keys immediately eligible for retry)
and returns the error with no value installed; but the single-key
`fetchNew` returns the error with NO store operation at all — the entry,
including its `lockUntil`/`lockOwner`, is left exactly as it was, so the
key stays locked until `LockExpire` passes. -/
theorem fetch_error_unlock :
    ∀ (opts : Options) (expire : Int) (o err : String) (e : Entry)
      (uttl : Int) (es : List Entry),
      fetchNewModel opts expire o (Except.error err) e = (e, Except.error err) ∧
      (fetchBatchOnError o uttl err es).2 = Except.error err ∧
      (fetchBatchOnError o uttl err es).1 = es.map (unlockScript o uttl) ∧
      (∀ e2 : Entry, e2.lockOwner = some o →
        (unlockScript o uttl e2).lockUntil = some 0 ∧
        (unlockScript o uttl e2).lockOwner = none) := by
  intro opts expire o err e uttl es
  refine ⟨rfl, rfl, rfl, fun e2 h2 => ?_⟩
  constructor
  · simp [unlockScript, h2]
  · simp [unlockScript, h2]

theorem fetch_error_unlock_witness :
    fetchNewModel NewDefaultOptions 40000000000 "A" (Except.error "db down")
      ⟨none, some 3000001000, some "A", none⟩ =
      (⟨none, some 3000001000, some "A", none⟩, Except.error "db down") ∧
    (unlockScript "A" 10 ⟨none, some 3000001000, some "A", none⟩).lockUntil =
      some 0 := by
  constructor
  · exact (fetch_error_unlock NewDefaultOptions 40000000000 "A" "db down"
      ⟨none, some 3000001000, some "A", none⟩ 10 []).1
  · exact ((fetch_error_unlock NewDefaultOptions 40000000000 "A" "db down"
      ⟨none, some 3000001000, some "A", none⟩ 10 []).2.2.2
      ⟨none, some 3000001000, some "A", none⟩ rfl).1

/-- C6: with cache deletion enabled, tag-as-deleted (single and batch
per key) sets `lockUntil` to 0, deletes `lockOwner`, applies a TTL of
Delay whole seconds to the hash, and leaves any preexisting `value`
field in place; the previous `lockOwner` of the entry is never consulted
(the statement quantifies over every entry, hence over every current
owner), so any caller may tombstone. -/
theorem tagAsDeleted_tombstone :
    ∀ (opts : Options) (e : Entry) (es : List Entry),
      opts.disableCacheDelete = false →
      (TagAsDeleted opts e).lockUntil = some 0 ∧
      (TagAsDeleted opts e).lockOwner = none ∧
      (TagAsDeleted opts e).ttl = some (opts.delay.tdiv nsPerSec) ∧
      (TagAsDeleted opts e).value = e.value ∧
      TagAsDeletedBatchModel opts es =
        es.map (deleteScript (opts.delay.tdiv nsPerSec)) ∧
      (∀ d : Int, ∀ e2 : Entry,
        (deleteScript d e2).lockUntil = some 0 ∧
        (deleteScript d e2).lockOwner = none ∧
        (deleteScript d e2).ttl = some d ∧
        (deleteScript d e2).value = e2.value) := by
  intro opts e es hdis
  refine ⟨?_, ?_, ?_, ?_, ?_, fun d e2 => ⟨rfl, rfl, rfl, rfl⟩⟩ <;>
    simp [TagAsDeleted, TagAsDeletedBatchModel, deleteBatchScript,
      deleteScript, hdis]

theorem tagAsDeleted_tombstone_witness :
    (TagAsDeleted NewDefaultOptions ⟨some "v1", none, some "B", some 60⟩).lockUntil =
      some 0 ∧
    (TagAsDeleted NewDefaultOptions ⟨some "v1", none, some "B", some 60⟩).ttl =
      some 10 ∧
    (TagAsDeleted NewDefaultOptions ⟨some "v1", none, some "B", some 60⟩).value =
      some "v1" := by
  refine ⟨?_, ?_, ?_⟩
  · exact (tagAsDeleted_tombstone NewDefaultOptions
      ⟨some "v1", none, some "B", some 60⟩ [] rfl).1
  · have h := (tagAsDeleted_tombstone NewDefaultOptions
      ⟨some "v1", none, some "B", some 60⟩ [] rfl).2.2.1
    rwa [show (NewDefaultOptions.delay.tdiv nsPerSec) = 10 from by decide] at h
  · exact (tagAsDeleted_tombstone NewDefaultOptions
      ⟨some "v1", none, some "B", some 60⟩ [] rfl).2.2.2.1

/-- C7: when fn succeeds with the empty string, `fetchNew` (and
`fetchBatch` per index) deletes the key outright and returns "" if
`EmptyExpire` is 0, and otherwise installs the empty value through the
owner-checked set script with `EmptyExpire` whole seconds as TTL and
returns "". -/
theorem fetch_empty_result :
    ∀ (opts : Options) (expire : Int) (o : String) (e : Entry) (u : ℚ),
      (opts.emptyExpire = 0 →
        fetchNewModel opts expire o (Except.ok "") e =
          (Entry.missing, Except.ok "") ∧
        fetchBatchItem opts expire u "" = ItemPlan.delKey) ∧
      (opts.emptyExpire ≠ 0 →
        fetchNewModel opts expire o (Except.ok "") e =
          (setScript "" o (opts.emptyExpire.tdiv nsPerSec) e, Except.ok "") ∧
        fetchBatchItem opts expire u "" =
          ItemPlan.setItem "" (opts.emptyExpire.tdiv nsPerSec)) := by
  intro opts expire o e u
  constructor
  · intro hz
    exact ⟨by simp [fetchNewModel, hz], by simp [fetchBatchItem, hz]⟩
  · intro hz
    exact ⟨by simp [fetchNewModel, hz], by simp [fetchBatchItem, hz]⟩

theorem fetch_empty_result_witness :
    fetchNewModel NewDefaultOptions 40000000000 "A" (Except.ok "")
      ⟨none, some 1003, some "A", none⟩ =
      (⟨some "", none, none, some 60⟩, Except.ok "") := by
  have h := ((fetch_empty_result NewDefaultOptions 40000000000 "A"
    ⟨none, some 1003, some "A", none⟩ 0).2 (by decide)).1
  rwa [show setScript "" "A" (NewDefaultOptions.emptyExpire.tdiv nsPerSec)
      ⟨none, some 1003, some "A", none⟩ = ⟨some "", none, none, some 60⟩
    from by decide] at h

/-- A batch entry currently locked by owner "A". -/
def entryOwnedA : Entry := ⟨some "old1", some 0, some "A", some 5⟩

/-- A batch entry currently locked by owner "B". -/
def entryOwnedB : Entry := ⟨some "old2", some 0, some "B", some 5⟩

/-- C8 counterexample: a two-key set-batch by owner "A" where the second
key has `lockOwner` "B".  The claim says an ownership mismatch anywhere
in the batch leaves every key unwritten; the script, which checks owners
in key order and only then aborts, has already written the first key
(value installed, lock fields cleared, TTL applied) before it reaches
the mismatch. -/
theorem setBatch_mismatch_writes_prefix :
    setBatchScript "A" ["v1", "v2"] [10, 11] [entryOwnedA, entryOwnedB] =
      [⟨some "v1", none, none, some 10⟩, entryOwnedB] ∧
    entryOwnedB.lockOwner ≠ some "A" ∧
    (⟨some "v1", none, none, some 10⟩ : Entry) ≠ entryOwnedA := by
  decide

/-- C8 as amended: the set-batch script processes the batch in key order
and stops at the first key whose `lockOwner` differs from the token of
the caller: there is a cut `k` such that every key before it was owned by the
caller and is fully written (as by the guardless write loop), every key
from the cut on is left entirely unchanged, and when the cut is inside
the batch the key at the cut is the first ownership mismatch. -/
theorem setBatch_prefix_abort (owner : String) :
    ∀ (es : List Entry) (vs : List String) (ts : List Int),
      vs.length = es.length → ts.length = es.length →
      ∃ k, k ≤ es.length ∧
        (∀ e ∈ es.take k, e.lockOwner = some owner) ∧
        (setBatchScript owner vs ts es).take k = (writeAll vs ts es).take k ∧
        (setBatchScript owner vs ts es).drop k = es.drop k ∧
        (∀ h : k < es.length, (es.get ⟨k, h⟩).lockOwner ≠ some owner) := by
  intro es
  induction es with
  | nil =>
      intro vs ts hv ht
      cases vs with
      | cons v vs => simp at hv
      | nil =>
          cases ts with
          | cons t ts => simp at ht
          | nil =>
              exact ⟨0, by simp, by simp, by simp, by simp [setBatchScript],
                fun h => absurd h (by simp)⟩
  | cons e es ih =>
      intro vs ts hv ht
      cases vs with
      | nil => simp at hv
      | cons v vs =>
          cases ts with
          | nil => simp at ht
          | cons t ts =>
              by_cases he : e.lockOwner = some owner
              · obtain ⟨k, hk, hall, htake, hdrop, hmis⟩ :=
                  ih vs ts (by simpa using hv) (by simpa using ht)
                have hstep : setBatchScript owner (v :: vs) (t :: ts) (e :: es) =
                    setWrite v t e :: setBatchScript owner vs ts es := by
                  simp [setBatchScript, he]
                refine ⟨k + 1, by simpa using hk, ?_, ?_, ?_, ?_⟩
                · intro e2 he2
                  rw [List.take_succ_cons] at he2
                  rcases List.mem_cons.1 he2 with rfl | h2
                  · exact he
                  · exact hall _ h2
                · rw [hstep, show writeAll (v :: vs) (t :: ts) (e :: es) =
                      setWrite v t e :: writeAll vs ts es from rfl,
                    List.take_succ_cons, List.take_succ_cons, htake]
                · rw [hstep, List.drop_succ_cons, List.drop_succ_cons, hdrop]
                · intro h
                  have := hmis (Nat.lt_of_succ_lt_succ h)
                  simpa using this
              · refine ⟨0, by simp, by simp, by simp, ?_, ?_⟩
                · simp [setBatchScript, he]
                · intro h
                  simpa using he

theorem setBatch_prefix_abort_witness :
    ∃ k, k ≤ ([entryOwnedA, entryOwnedB] : List Entry).length ∧
      (∀ e ∈ ([entryOwnedA, entryOwnedB] : List Entry).take k,
        e.lockOwner = some "A") ∧
      (setBatchScript "A" ["v1", "v2"] [10, 11]
          [entryOwnedA, entryOwnedB]).take k =
        (writeAll ["v1", "v2"] [10, 11] [entryOwnedA, entryOwnedB]).take k ∧
      (setBatchScript "A" ["v1", "v2"] [10, 11]
          [entryOwnedA, entryOwnedB]).drop k =
        ([entryOwnedA, entryOwnedB] : List Entry).drop k ∧
      (∀ h : k < ([entryOwnedA, entryOwnedB] : List Entry).length,
        (([entryOwnedA, entryOwnedB] : List Entry).get ⟨k, h⟩).lockOwner ≠
          some "A") :=
  setBatch_prefix_abort "A" [entryOwnedA, entryOwnedB] ["v1", "v2"] [10, 11]
    rfl rfl

/-- C9 counterexample: with the default options (Delay 10s, adjustment
0.1), caller expire 61s and random draw u = 99/100, the jitter is
6.039s, the effective duration 44.961s, and the whole-second TTL handed
to the set script is 44s — strictly below the claimed lower endpoint
`expire − Delay − 0.1·expire = 44.9s` (all values in nanoseconds on the
right of the comparison). -/
theorem fetch_ttl_below_interval :
    fetchSetTtlSecs NewDefaultOptions (99/100) 61000000000 = 44 ∧
    (44 : ℚ) * 1000000000 <
      61000000000 - 10000000000 - (1/10 : ℚ) * 61000000000 := by
  have hj : jitterDur NewDefaultOptions.randomExpireAdjustment (99/100)
      61000000000 = 6039000000 := by
    unfold jitterDur
    rw [show (99/100 : ℚ) * NewDefaultOptions.randomExpireAdjustment *
        ((61000000000 : Int) : ℚ) = ((6039000000 : Int) : ℚ) from by
      norm_num [NewDefaultOptions]]
    exact Int.floor_intCast _
  constructor
  · unfold fetchSetTtlSecs fetchEffectiveExpire
    rw [hj]
    decide
  · norm_num

/-- C9 as amended: before the whole-second truncation at the script
boundary, the effective expire duration always lies in the closed
interval `[expire − Delay − RandomExpireAdjustment·expire, expire − Delay]`
(for any draw u ∈ [0,1)); the TTL handed to the set script is that
duration truncated to whole seconds, and can therefore fall up to one
second below the lower endpoint of the interval. -/
theorem fetch_ttl_interval :
    ∀ (opts : Options) (u : ℚ) (expire : Int),
      0 ≤ u → u < 1 → 0 ≤ opts.randomExpireAdjustment → 0 ≤ expire →
      ((expire : ℚ) - (opts.delay : ℚ) -
          opts.randomExpireAdjustment * (expire : ℚ) ≤
        ((fetchEffectiveExpire opts u expire : Int) : ℚ)) ∧
      (((fetchEffectiveExpire opts u expire : Int) : ℚ) ≤
        (expire : ℚ) - (opts.delay : ℚ)) ∧
      fetchSetTtlSecs opts u expire =
        (fetchEffectiveExpire opts u expire).tdiv nsPerSec := by
  intro opts u expire h0 h1 hadj he
  have hexq : (0 : ℚ) ≤ (expire : ℚ) := by exact_mod_cast he
  have hprod : (0 : ℚ) ≤ opts.randomExpireAdjustment * (expire : ℚ) :=
    mul_nonneg hadj hexq
  have hfl : ((jitterDur opts.randomExpireAdjustment u expire : Int) : ℚ) ≤
      u * opts.randomExpireAdjustment * (expire : ℚ) := Int.floor_le _
  have hub : u * opts.randomExpireAdjustment * (expire : ℚ) ≤
      opts.randomExpireAdjustment * (expire : ℚ) := by
    calc u * opts.randomExpireAdjustment * (expire : ℚ)
        = u * (opts.randomExpireAdjustment * (expire : ℚ)) := by ring
      _ ≤ 1 * (opts.randomExpireAdjustment * (expire : ℚ)) :=
          mul_le_mul_of_nonneg_right (le_of_lt h1) hprod
      _ = opts.randomExpireAdjustment * (expire : ℚ) := one_mul _
  have hnn : (0 : Int) ≤ jitterDur opts.randomExpireAdjustment u expire := by
    apply Int.le_floor.2
    push_cast
    exact mul_nonneg (mul_nonneg h0 hadj) hexq
  have hnnq : (0 : ℚ) ≤
      ((jitterDur opts.randomExpireAdjustment u expire : Int) : ℚ) := by
    exact_mod_cast hnn
  refine ⟨?_, ?_, rfl⟩
  · unfold fetchEffectiveExpire
    push_cast
    linarith
  · unfold fetchEffectiveExpire
    push_cast
    linarith

theorem fetch_ttl_interval_witness :
    ((fetchEffectiveExpire NewDefaultOptions 0 40000000000 : Int) : ℚ) ≤
      ((40000000000 : Int) : ℚ) - (NewDefaultOptions.delay : ℚ) :=
  (fetch_ttl_interval NewDefaultOptions 0 40000000000 le_rfl (by norm_num)
    (by norm_num [NewDefaultOptions]) (by norm_num)).2.1

end RocksCache
